import Mathlib

/-!
Verification of the fuzzy chat-matching core of the Beeper Raycast extension:
the similarity scorer `calculateSimilarity` with its Levenshtein fallback, the
ranker `rankChatMatches`, and the service-name normalizer `parseService`.
JavaScript strings are modelled as `List Char`; JavaScript numbers as `ℚ`.
-/

set_option maxHeartbeats 1000000

namespace Beeper

/-- Embed a Lean string literal as the `List Char` model of a JS string. -/
def str (s : String) : List Char := s.data

/-- Model of `s.toLowerCase()`, applied character by character. -/
def lowerL (s : List Char) : List Char := s.map Char.toLower

/-- Model of `s.trim()`: strip leading and trailing whitespace. -/
def trimL (s : List Char) : List Char :=
  ((s.dropWhile Char.isWhitespace).reverse.dropWhile Char.isWhitespace).reverse

/-- The `toLowerCase().trim()` normalization applied to both arguments at the
top of `calculateSimilarity`. -/
def normStr (s : List Char) : List Char := trimL (lowerL s)

/-- Fuelled worker for `splitWs`; the fuel (an upper bound on the string
length) only makes the recursion structural, it never runs out when
`splitWs` supplies it. -/
def splitWsF : Nat → List Char → List (List Char)
  | 0, s => [s.takeWhile (fun c => !c.isWhitespace)]
  | fuel + 1, s =>
    match s.dropWhile (fun c => !c.isWhitespace) with
    | [] => [s.takeWhile (fun c => !c.isWhitespace)]
    | _ :: rs => s.takeWhile (fun c => !c.isWhitespace) :: splitWsF fuel (rs.dropWhile Char.isWhitespace)

/-- Model of `t.split(/\s+/)`: split at maximal runs of whitespace.  As in JS, a
leading whitespace run yields a leading empty token and the empty string
yields `[""]`. -/
def splitWs (s : List Char) : List (List Char) := splitWsF s.length s

/-- Rows of the dynamic-programming matrix filled by `levenshteinDistance`:
`levCellF a b i j` is `matrix[i][j]`, the distance between the first `i`
characters of `b` and the first `j` characters of `a`.  Row `i + 1` is
computed from row `i` so that the recursion is structural.  The comparison
`b[i]? = a[j]?` models `b.charAt(i) === a.charAt(j)` (an out-of-range
`charAt` yields `""` on both sides exactly when both options are `none`). -/
def levRowF (a b : List Char) (i : Nat) (prev : Nat → Nat) : Nat → Nat
  | 0 => i + 1
  | j + 1 =>
    if b[i]? = a[j]? then prev j
    else
      min (prev j + 1) (min (levRowF a b i prev j + 1) (prev (j + 1) + 1))

def levCellF (a b : List Char) : Nat → Nat → Nat
  | 0 => fun j => j
  | i + 1 => levRowF a b i (levCellF a b i)

/-- Cell `matrix[i][j]` of the Levenshtein DP. -/
def levCell (a b : List Char) (i j : Nat) : Nat := levCellF a b i j

/-- The distance `levenshteinDistance(a, b)`, i.e. `matrix[b.length][a.length]`. -/
def levenshteinDistance (a b : List Char) : Nat :=
  levCell a b b.length a.length

/-- The `matchType` classification of a score. -/
inductive MatchType where
  | exact
  | startsWith
  | contains
  | word
  | fuzzy
deriving DecidableEq, Repr

/-- The `for (const word of targetWords)` loop of `calculateSimilarity`:
return on the first token that equals the query (score 0.9) or starts with
the query (score 0.8). -/
def findWordMatch (q : List Char) : List (List Char) → Option (ℚ × MatchType)
  | [] => none
  | w :: ws =>
    if w = q then some (0.9, MatchType.word)
    else if q <+: w then some (0.8, MatchType.word)
    else findWordMatch q ws

/-- The scorer `calculateSimilarity(query, target)`: lower-case and trim both inputs,
then try exact, starts-with, contains, word-level match, and finally the
normalized-Levenshtein fuzzy fallback with a first-letter 1.1 boost capped
at 1.  `q.head? = t.head?` models `q[0] === t[0]` (both sides `undefined`,
hence equal, only when both strings are empty). -/
def calculateSimilarity (query target : List Char) : ℚ × MatchType :=
  let q := normStr query
  let t := normStr target
  if q = t then (1, MatchType.exact)
  else if q <+: t then (0.95, MatchType.startsWith)
  else if q <:+: t then (0.85, MatchType.contains)
  else
    match findWordMatch q (splitWs t) with
    | some r => r
    | none =>
      let maxLen := max q.length t.length
      if maxLen = 0 then (1, MatchType.exact)
      else
        let dist := levenshteinDistance q t
        let normalizedScore : ℚ := 1 - (dist : ℚ) / (maxLen : ℚ)
        if q.head? = t.head? then (min 1 (normalizedScore * 1.1), MatchType.fuzzy)
        else (normalizedScore, MatchType.fuzzy)

/-- The `serviceMap` of `parseService`, in JS object insertion order (the
order `Object.entries` iterates string keys). -/
def serviceMap : List (List Char × List Char) :=
  [(str "whatsapp", str "whatsapp"),
   (str "telegram", str "telegram"),
   (str "signal", str "signal"),
   (str "instagram", str "instagram"),
   (str "messenger", str "messenger"),
   (str "facebook", str "messenger"),
   (str "discord", str "discord"),
   (str "slack", str "slack"),
   (str "linkedin", str "linkedin"),
   (str "twitter", str "twitter"),
   (str "x", str "twitter"),
   (str "googlechat", str "googlechat"),
   (str "google-chat", str "googlechat"),
   (str "googlemessages", str "googlemessages"),
   (str "google-messages", str "googlemessages"),
   (str "gmessages", str "googlemessages"),
   (str "g-messages", str "googlemessages"),
   (str "androidsms", str "googlemessages"),
   (str "android", str "googlemessages"),
   (str "rcs", str "googlemessages"),
   (str "messages", str "googlemessages"),
   (str "google messages", str "googlemessages"),
   (str "texts", str "googlemessages"),
   (str "googlevoice", str "googlevoice"),
   (str "google-voice", str "googlevoice"),
   (str "sms", str "sms"),
   (str "imessage", str "imessage"),
   (str "matrix", str "matrix"),
   (str "beeper (matrix)", str "matrix"),
   (str "beeper", str "matrix")]

/-- The condition of the fallback loop in `parseService`:
`key.length >= 3 && normalized.startsWith(key)`. -/
def serviceKeyMatches (normalized : List Char) (kv : List Char × List Char) : Bool :=
  3 ≤ kv.1.length && kv.1.isPrefixOf normalized

/-- The normalizer `parseService(serviceString)`: `undefined` or `""` yield `"unknown"`
(JS falsiness); otherwise lower-case, look the string up exactly in
`serviceMap`, else return the value of the first map entry (in insertion
order) whose key has length ≥ 3 and is a prefix of the string, else
`"unknown"`. -/
def parseService (serviceString : Option (List Char)) : List Char :=
  match serviceString with
  | none => str "unknown"
  | some s =>
    if s = [] then str "unknown"
    else
      let normalized := lowerL s
      match serviceMap.lookup normalized with
      | some v => v
      | none =>
        match serviceMap.find? (serviceKeyMatches normalized) with
        | some kv => kv.2
        | none => str "unknown"

/-- The specification's reading of the fallback: take the LONGEST map key of
length ≥ 3 that is a prefix of the normalized string, rather than the first
in insertion order.  Stated separately so the two readings can be compared. -/
def parseServiceLongestKey (serviceString : Option (List Char)) : List Char :=
  match serviceString with
  | none => str "unknown"
  | some s =>
    if s = [] then str "unknown"
    else
      let normalized := lowerL s
      match serviceMap.lookup normalized with
      | some v => v
      | none =>
        match (serviceMap.filter (serviceKeyMatches normalized)).argmax
            (fun kv => kv.1.length) with
        | some kv => kv.2
        | none => str "unknown"

/-- A chat record as consumed by the ranker (`ChatMatch` in the source). -/
structure ChatMatch where
  id : List Char
  title : List Char
  network : List Char
  accountID : Option (List Char) := none
  type : Option (List Char) := none
  lastActivity : Option (List Char) := none
  unreadCount : Option ℚ := none
  isMuted : Option Bool := none
  isArchived : Option Bool := none
deriving DecidableEq, Repr

/-- A scored candidate (`MatchResult` in the source). -/
structure MatchResult where
  chat : ChatMatch
  score : ℚ
  matchType : MatchType
deriving DecidableEq, Repr

/-- The `options` object of `rankChatMatches`; a missing property is `none`. -/
structure RankOptions where
  service : Option (List Char) := none
  minScore : Option ℚ := none
  maxResults : Option Nat := none

/-- The order the JS comparator `(a, b) => b.score - a.score` sorts by:
descending score. -/
def scoreGE (a b : MatchResult) : Prop := b.score ≤ a.score

instance : DecidableRel scoreGE :=
  fun a b => (inferInstance : Decidable (b.score ≤ a.score))

instance : IsTotal MatchResult scoreGE :=
  ⟨fun a b => le_total b.score a.score⟩

instance : IsTrans MatchResult scoreGE :=
  ⟨fun _ _ _ h1 h2 => le_trans h2 h1⟩

/-- The `if (service) { ... matches.filter(...) }` pre-filter of
`rankChatMatches`: skipped for `undefined` or `""` (JS falsiness), otherwise
keeps chats whose `parseService`d network, lower-cased, equals the
lower-cased raw filter string. -/
def serviceFilter (service : Option (List Char)) (chats : List ChatMatch) : List ChatMatch :=
  match service with
  | none => chats
  | some s =>
    if s = [] then chats
    else chats.filter (fun chat => lowerL (parseService (some chat.network)) = lowerL s)

/-- The `minScore = 0.4` destructuring default of `rankChatMatches`. -/
def effMinScore (options : Option RankOptions) : ℚ :=
  ((options.getD {}).minScore).getD 0.4

/-- The `maxResults = 5` destructuring default of `rankChatMatches`. -/
def effMaxResults (options : Option RankOptions) : Nat :=
  ((options.getD {}).maxResults).getD 5

/-- The `matches.map(...)` scoring step of `rankChatMatches`:
`const { score, matchType } = calculateSimilarity(query, chat.title);
return { chat, score, matchType };`. -/
def scoreChats (query : List Char) (chats : List ChatMatch) : List MatchResult :=
  chats.map (fun chat =>
    let r := calculateSimilarity query chat.title
    { chat := chat, score := r.1, matchType := r.2 })

/-- The ranker `rankChatMatches(chats, query, options)`: optional service pre-filter,
score every remaining candidate's title, keep scores ≥ `minScore`, sort by
descending score (JS `Array.prototype.sort` is stable, so this is the stable
descending insertion sort), and `slice(0, maxResults)`. -/
def rankChatMatches (chats : List ChatMatch) (query : List Char)
    (options : Option RankOptions) : List MatchResult :=
  let service := (options.getD {}).service
  let minScore := effMinScore options
  let maxResults := effMaxResults options
  (((scoreChats query (serviceFilter service chats)).filter
      (fun m => minScore ≤ m.score)).insertionSort scoreGE).take maxResults

/-- The reference pipeline the specification describes for the ranker:
pre-filter, score, threshold, stable descending sort, truncate. -/
def rankReference (chats : List ChatMatch) (query : List Char)
    (options : Option RankOptions) : List MatchResult :=
  let preFiltered := serviceFilter (options.getD {}).service chats
  let scored := scoreChats query preFiltered
  let kept := scored.filter (fun m => effMinScore options ≤ m.score)
  (kept.insertionSort scoreGE).take (effMaxResults options)

/-- The fuzzy-fallback score: normalized Levenshtein similarity with the
first-letter 1.1 boost capped at 1. -/
def fuzzyScore (q t : List Char) : ℚ :=
  let maxLen := max q.length t.length
  let normalizedScore : ℚ := 1 - (levenshteinDistance q t : ℚ) / (maxLen : ℚ)
  if q.head? = t.head? then min 1 (normalizedScore * 1.1) else normalizedScore

/-- The priority order of match types the specification refers to:
exact ≥ startsWith ≥ word ≥ contains ≥ fuzzy. -/
def prio : MatchType → Nat
  | .exact => 4
  | .startsWith => 3
  | .word => 2
  | .contains => 1
  | .fuzzy => 0

/-- Bridge lemmas restated from the standard library, for list prefixes,
suffixes and contiguous sublists. -/
theorem takeWhileIsPre (p : Char → Bool) (l : List Char) : l.takeWhile p <+: l :=
  List.takeWhile_prefix p

theorem infixOfPre {l1 l2 : List Char} (h : l1 <+: l2) : l1 <:+: l2 :=
  List.IsPrefix.isInfix h

theorem infixOfSuf {l1 l2 : List Char} (h : l1 <:+ l2) : l1 <:+: l2 :=
  List.IsSuffix.isInfix h

theorem isPrefixOfIff {l1 l2 : List Char} : l1.isPrefixOf l2 = true ↔ l1 <+: l2 :=
  List.isPrefixOf_iff_prefix

/-- Every token produced by the split occurs contiguously in the input. -/
theorem infix_of_mem_splitWsF {fuel : Nat} {s w : List Char}
    (hw : w ∈ splitWsF fuel s) : w <:+: s := by
  induction fuel generalizing s with
  | zero =>
    simp only [splitWsF, List.mem_singleton] at hw
    exact hw ▸ infixOfPre (takeWhileIsPre _ _)
  | succ fuel ih =>
    rw [splitWsF] at hw
    rcases h : s.dropWhile (fun c => !c.isWhitespace) with _ | ⟨r, rs⟩ <;> rw [h] at hw
    · simp only [List.mem_singleton] at hw
      exact hw ▸ infixOfPre (takeWhileIsPre _ _)
    · rcases List.mem_cons.mp hw with rfl | hw
      · exact infixOfPre (takeWhileIsPre _ _)
      · have h3 : (rs.dropWhile Char.isWhitespace) <:+ rs := List.dropWhile_suffix _
        have h4 : rs <:+ r :: rs := List.suffix_cons r rs
        have h5 : r :: rs <:+ s := h ▸ List.dropWhile_suffix _
        exact (ih hw).trans (infixOfSuf (h3.trans (h4.trans h5)))

theorem infix_of_mem_splitWs {s w : List Char} (hw : w ∈ splitWs s) : w <:+: s :=
  infix_of_mem_splitWsF hw

theorem levCell_zero_l (a b : List Char) (j : Nat) : levCell a b 0 j = j := rfl

theorem levCell_zero_r (a b : List Char) (i : Nat) : levCell a b i 0 = i := by
  cases i <;> rfl

/-- The recurrence of the inner double loop of `levenshteinDistance`:
substitution, insertion, and deletion, in the order the source takes the
minimum. -/
theorem levCell_succ_succ (a b : List Char) (i j : Nat) :
    levCell a b (i + 1) (j + 1) =
      if b[i]? = a[j]? then levCell a b i j
      else
        min (levCell a b i j + 1)
          (min (levCell a b (i + 1) j + 1) (levCell a b i (j + 1) + 1)) := rfl

/-- The DP matrix is symmetric in its two strings. -/
theorem levCell_symm (a b : List Char) (i j : Nat) :
    levCell a b i j = levCell b a j i := by
  induction i generalizing j with
  | zero => rw [levCell_zero_l, levCell_zero_r]
  | succ i ih =>
    induction j with
    | zero => rw [levCell_zero_r, levCell_zero_l]
    | succ j ihj =>
      rw [levCell_succ_succ, levCell_succ_succ]
      rcases eq_or_ne (b[i]?) (a[j]?) with hc | hc
      · rw [if_pos hc, if_pos hc.symm, ih]
      · rw [if_neg hc, if_neg (fun h => hc h.symm), ih j, ih (j + 1), ihj]
        omega

/-- Each DP cell is bounded by the larger of its two indices. -/
theorem levCell_le_max (a b : List Char) (i j : Nat) :
    levCell a b i j ≤ max i j := by
  induction i generalizing j with
  | zero => rw [levCell_zero_l]; omega
  | succ i ih =>
    induction j with
    | zero => rw [levCell_zero_r]; omega
    | succ j ihj =>
      rw [levCell_succ_succ]
      rcases eq_or_ne (b[i]?) (a[j]?) with hc | hc
      · rw [if_pos hc]
        have := ih j
        omega
      · rw [if_neg hc]
        have := ih j
        omega

/-- The Levenshtein distance never exceeds the length of the longer string. -/
theorem levenshteinDistance_le_max (a b : List Char) :
    levenshteinDistance a b ≤ max a.length b.length := by
  have h := levCell_le_max a b b.length a.length
  rw [levenshteinDistance]
  omega

/-- Any two map keys one of which is a prefix of the other carry the same
canonical tag (the only such chains are `android ≤ androidsms` and
`beeper ≤ beeper (matrix)`, both mapping to a single tag). -/
theorem serviceMap_chain_consistent :
    ∀ kv1 ∈ serviceMap, ∀ kv2 ∈ serviceMap,
      kv1.1.isPrefixOf kv2.1 → kv1.2 = kv2.2 := by decide

/-- C8: `parseService` behaves exactly as the specification's description:
exact lookup of the lower-cased input first, otherwise the tag of the
longest map key of length ≥ 3 that is a prefix of it, otherwise
`"unknown"` (also for an undefined/empty input).  The source iterates the
map in insertion order, but every prefix-comparable pair of keys carries
the same tag, so first-match and longest-match agree. -/
theorem parseService_eq_longestKey (s : Option (List Char)) :
    parseService s = parseServiceLongestKey s := by
  rcases s with _ | s
  · rfl
  unfold parseService parseServiceLongestKey
  by_cases hs : s = []
  · simp only [if_pos hs]
  simp only [if_neg hs]
  rcases hl : serviceMap.lookup (lowerL s) with _ | v
  swap
  · rfl
  rcases hf : serviceMap.find? (serviceKeyMatches (lowerL s)) with _ | kv1
  · have hnil : serviceMap.filter (serviceKeyMatches (lowerL s)) = [] := by
      rw [List.filter_eq_nil_iff]
      intro a ha
      exact List.find?_eq_none.mp hf a ha
    rw [hnil]
    rfl
  · have hkv1mem : kv1 ∈ serviceMap := List.mem_of_find?_eq_some hf
    have hkv1p := List.find?_some hf
    have hfmem : kv1 ∈ serviceMap.filter (serviceKeyMatches (lowerL s)) :=
      List.mem_filter.mpr ⟨hkv1mem, hkv1p⟩
    show kv1.2 = match (serviceMap.filter (serviceKeyMatches (lowerL s))).argmax
        (fun kv => kv.1.length) with
      | some kv => kv.2
      | none => str "unknown"
    split
    next kv2 ha =>
      show kv1.2 = kv2.2
      have hkv2f : kv2 ∈ serviceMap.filter (serviceKeyMatches (lowerL s)) :=
        List.argmax_mem ha
      have hkv2mem : kv2 ∈ serviceMap := (List.mem_filter.mp hkv2f).1
      have hkv2p := (List.mem_filter.mp hkv2f).2
      simp only [serviceKeyMatches, Bool.and_eq_true, decide_eq_true_eq] at hkv1p hkv2p
      have h1 : kv1.1 <+: lowerL s := isPrefixOfIff.mp hkv1p.2
      have h2 : kv2.1 <+: lowerL s := isPrefixOfIff.mp hkv2p.2
      rcases List.prefix_or_prefix_of_prefix h1 h2 with hc | hc
      · exact serviceMap_chain_consistent kv1 hkv1mem kv2 hkv2mem
          (isPrefixOfIff.mpr hc)
      · exact (serviceMap_chain_consistent kv2 hkv2mem kv1 hkv1mem
          (isPrefixOfIff.mpr hc)).symm
    next ha =>
      rw [List.argmax_eq_none] at ha
      rw [ha] at hfmem
      simp at hfmem

/-- The service pre-filter never invents candidates. -/
theorem serviceFilter_subset (service : Option (List Char)) (chats : List ChatMatch) :
    serviceFilter service chats ⊆ chats := by
  rcases service with _ | s
  · exact fun _ h => h
  · rw [serviceFilter]
    split
    · exact fun _ h => h
    · exact List.filter_subset' _

/-- The word-scan loop returns nothing when the query occurs nowhere in the
target, since every token (and every token prefix) occurs in the target. -/
theorem findWordMatch_eq_none {q t : List Char} (h : ¬ q <:+: t) :
    ∀ {ws : List (List Char)}, (∀ w ∈ ws, w <:+: t) → findWordMatch q ws = none := by
  intro ws
  induction ws with
  | nil => intro _; rfl
  | cons w ws ih =>
    intro hws
    rw [findWordMatch]
    rcases eq_or_ne w q with rfl | hne
    · exact absurd (hws w (List.mem_cons_self w ws)) h
    · rw [if_neg hne]
      by_cases hp : q <+: w
      · exact absurd ((infixOfPre hp).trans (hws w (List.mem_cons_self w ws))) h
      · rw [if_neg hp]
        exact ih (fun x hx => hws x (List.mem_cons_of_mem w hx))

theorem findWordMatch_splitWs_eq_none {q t : List Char} (h : ¬ q <:+: t) :
    findWordMatch q (splitWs t) = none :=
  findWordMatch_eq_none h (fun _ hw => infix_of_mem_splitWs hw)

/-- Exhaustive case analysis of `calculateSimilarity`: the decision ladder
returns exactly one of the four reachable outcomes (the word branch is
subsumed by the contains branch, and the `maxLen === 0` guard is subsumed by
the exact branch). -/
theorem calcSim_spec (query target : List Char) :
    (normStr query = normStr target ∧
      calculateSimilarity query target = (1, MatchType.exact)) ∨
    (normStr query ≠ normStr target ∧ normStr query <+: normStr target ∧
      calculateSimilarity query target = (0.95, MatchType.startsWith)) ∨
    (normStr query ≠ normStr target ∧ ¬ normStr query <+: normStr target ∧
      normStr query <:+: normStr target ∧
      calculateSimilarity query target = (0.85, MatchType.contains)) ∨
    (normStr query ≠ normStr target ∧ ¬ normStr query <+: normStr target ∧
      ¬ normStr query <:+: normStr target ∧
      calculateSimilarity query target =
        (fuzzyScore (normStr query) (normStr target), MatchType.fuzzy)) := by
  by_cases h1 : normStr query = normStr target
  · left
    refine ⟨h1, ?_⟩
    simp only [calculateSimilarity]
    rw [if_pos h1]
  by_cases h2 : normStr query <+: normStr target
  · right; left
    refine ⟨h1, h2, ?_⟩
    simp only [calculateSimilarity]
    rw [if_neg h1, if_pos h2]
  by_cases h3 : normStr query <:+: normStr target
  · right; right; left
    refine ⟨h1, h2, h3, ?_⟩
    simp only [calculateSimilarity]
    rw [if_neg h1, if_neg h2, if_pos h3]
  right; right; right
  refine ⟨h1, h2, h3, ?_⟩
  have hml : ¬ max (normStr query).length (normStr target).length = 0 := by
    intro h0
    rcases Nat.max_eq_zero_iff.mp h0 with ⟨hq0, ht0⟩
    exact h1 (by rw [List.length_eq_zero.mp hq0, List.length_eq_zero.mp ht0])
  simp only [calculateSimilarity]
  rw [if_neg h1, if_neg h2, if_neg h3, findWordMatch_splitWs_eq_none h3]
  simp only [if_neg hml]
  by_cases hh : (normStr query).head? = (normStr target).head?
  · rw [if_pos hh, fuzzyScore, if_pos hh]
  · rw [if_neg hh, fuzzyScore, if_neg hh]

/-- The fuzzy score is within `[0, 1]` whenever the normalized strings
differ (the only situation in which the fuzzy branch runs). -/
theorem fuzzyScore_mem_unit {q t : List Char} (hne : q ≠ t) :
    0 ≤ fuzzyScore q t ∧ fuzzyScore q t ≤ 1 := by
  have hml : max q.length t.length ≠ 0 := by
    intro h0
    rcases Nat.max_eq_zero_iff.mp h0 with ⟨hq0, ht0⟩
    exact hne (by rw [List.length_eq_zero.mp hq0, List.length_eq_zero.mp ht0])
  have hm0 : (0 : ℚ) < ((max q.length t.length : ℕ) : ℚ) := by
    exact_mod_cast Nat.pos_of_ne_zero hml
  have hd : (levenshteinDistance q t : ℚ) ≤ ((max q.length t.length : ℕ) : ℚ) := by
    exact_mod_cast levenshteinDistance_le_max q t
  have hdn : (0 : ℚ) ≤ (levenshteinDistance q t : ℚ) := Nat.cast_nonneg _
  have hbase0 : 0 ≤ 1 - (levenshteinDistance q t : ℚ) / ((max q.length t.length : ℕ) : ℚ) := by
    have h1 : (levenshteinDistance q t : ℚ) / ((max q.length t.length : ℕ) : ℚ) ≤ 1 :=
      (div_le_one hm0).mpr hd
    linarith
  have hbase1 : 1 - (levenshteinDistance q t : ℚ) / ((max q.length t.length : ℕ) : ℚ) ≤ 1 := by
    have h1 : 0 ≤ (levenshteinDistance q t : ℚ) / ((max q.length t.length : ℕ) : ℚ) :=
      div_nonneg hdn hm0.le
    linarith
  rw [fuzzyScore]
  split
  · constructor
    · exact le_min (by norm_num) (mul_nonneg hbase0 (by norm_num))
    · exact min_le_left _ _
  · exact ⟨hbase0, hbase1⟩

/-- Scores attached to each reachable match type, and unreachability of the
word type. -/
theorem calcSim_score_of_matchType (query target : List Char) :
    ((calculateSimilarity query target).2 = MatchType.exact →
      (calculateSimilarity query target).1 = 1) ∧
    ((calculateSimilarity query target).2 = MatchType.startsWith →
      (calculateSimilarity query target).1 = 0.95) ∧
    ((calculateSimilarity query target).2 = MatchType.contains →
      (calculateSimilarity query target).1 = 0.85) ∧
    (calculateSimilarity query target).2 ≠ MatchType.word := by
  rcases calcSim_spec query target with ⟨_, h⟩ | ⟨_, _, h⟩ | ⟨_, _, _, h⟩ | ⟨_, _, _, h⟩ <;>
    rw [h] <;> exact ⟨by simp, by simp, by simp, by simp⟩

/-- The value of `fuzzyScore` against an empty target is exactly 0 for a non-empty query:
the distance equals the query length, the denominator equals it too, and no
boost applies because the empty target has no first character. -/
theorem fuzzyScore_empty_target {q : List Char} (hq : q ≠ []) : fuzzyScore q [] = 0 := by
  have hlen : q.length ≠ 0 := fun h => hq (List.length_eq_zero.mp h)
  have hd : levenshteinDistance q [] = q.length := rfl
  have hh : q.head? ≠ ([] : List Char).head? := by
    cases q with
    | nil => exact absurd rfl hq
    | cons c cs => simp
  rw [fuzzyScore, if_neg hh, hd]
  have hm : max q.length ([] : List Char).length = q.length := by simp
  rw [hm, div_self (by exact_mod_cast hlen : (q.length : ℚ) ≠ 0)]
  ring

theorem prio_le_four (mt : MatchType) : prio mt ≤ 4 := by
  cases mt <;> decide

/-- C9: the Levenshtein distance function is symmetric:
`levenshteinDistance(a, b) = levenshteinDistance(b, a)` for all strings. -/
theorem levenshtein_symm (a b : List Char) :
    levenshteinDistance a b = levenshteinDistance b a := by
  rw [levenshteinDistance, levenshteinDistance, levCell_symm]

/-- C10: `calculateSimilarity` never returns match type `word`: any
whitespace-delimited token of the target (or prefix of one) is a substring
of the target, so the earlier `contains` (or an earlier) rule always fires
first and the word branch is dead code. -/
theorem matchType_never_word (query target : List Char) :
    (calculateSimilarity query target).2 ≠ MatchType.word :=
  (calcSim_score_of_matchType query target).2.2.2

/-- C5: for every pair of inputs, including empty strings, the score
returned by `calculateSimilarity` lies in `[0, 1]`. -/
theorem score_in_unit_interval (query target : List Char) :
    0 ≤ (calculateSimilarity query target).1 ∧ (calculateSimilarity query target).1 ≤ 1 := by
  rcases calcSim_spec query target with ⟨_, h⟩ | ⟨_, _, h⟩ | ⟨_, _, _, h⟩ | ⟨hne, _, _, h⟩ <;>
    rw [h]
  · norm_num
  · norm_num
  · norm_num
  · exact fuzzyScore_mem_unit hne

/-- C4: when none of the exact, startsWith, contains, or word rules applies
and at least one normalized input is non-empty, `calculateSimilarity`
returns match type `fuzzy` with score `1 − d / max(|q|, |t|)` (d the
Levenshtein distance), multiplied by 1.1 and capped at 1.0 exactly when the
first characters agree — i.e. the value of `fuzzyScore`. -/
theorem fuzzy_fallback_formula (query target : List Char)
    (h1 : normStr query ≠ normStr target)
    (h2 : ¬ normStr query <+: normStr target)
    (h3 : ¬ normStr query <:+: normStr target)
    (_h4 : findWordMatch (normStr query) (splitWs (normStr target)) = none)
    (_h5 : normStr query ≠ [] ∨ normStr target ≠ []) :
    calculateSimilarity query target =
      (fuzzyScore (normStr query) (normStr target), MatchType.fuzzy) := by
  rcases calcSim_spec query target with ⟨h, _⟩ | ⟨_, h, _⟩ | ⟨_, _, h, _⟩ | ⟨_, _, _, h⟩
  exacts [absurd h h1, absurd h h2, absurd h h3, h]

/-- Witness for C4 at the inputs `"abc"`/`"abd"`: no earlier rule applies,
so the fuzzy formula is returned. -/
theorem fuzzy_fallback_formula_wit :
    calculateSimilarity (str "abc") (str "abd") =
      (fuzzyScore (normStr (str "abc")) (normStr (str "abd")), MatchType.fuzzy) :=
  fuzzy_fallback_formula (str "abc") (str "abd") (by decide) (by decide) (by decide) rfl
    (by decide)

/-- C2 counterexample: `"smith"` against `"john smith"` satisfies the
claim's hypotheses (not equal, not a prefix, equals a whitespace-delimited
token of the target) but scores 0.85 with match type `contains`, not 0.9
with match type `word`: the contains rule fires before the word rule can. -/
theorem word_rule_counterexample :
    normStr (str "smith") ≠ normStr (str "john smith") ∧
    ¬ normStr (str "smith") <+: normStr (str "john smith") ∧
    normStr (str "smith") ∈ splitWs (normStr (str "john smith")) ∧
    calculateSimilarity (str "smith") (str "john smith") = (0.85, MatchType.contains) ∧
    (calculateSimilarity (str "smith") (str "john smith")).2 ≠ MatchType.word :=
  ⟨by decide, by decide, by decide, rfl, by decide⟩

/-- C2 amended: if (after normalization) the query equals a
whitespace-delimited token of the target, or is a prefix of one, while not
equal to and not a prefix of the whole target, then `calculateSimilarity`
returns score 0.85 with match type `contains` (the word branch, scores
0.9/0.8, is unreachable). -/
theorem token_match_scores_contains (query target : List Char)
    (h1 : normStr query ≠ normStr target)
    (h2 : ¬ normStr query <+: normStr target)
    (h3 : ∃ w ∈ splitWs (normStr target), w = normStr query ∨ normStr query <+: w) :
    calculateSimilarity query target = (0.85, MatchType.contains) := by
  have hinf : normStr query <:+: normStr target := by
    rcases h3 with ⟨w, hw, hcase⟩
    have hwt := infix_of_mem_splitWs hw
    rcases hcase with rfl | hp
    · exact hwt
    · exact (infixOfPre hp).trans hwt
  rcases calcSim_spec query target with ⟨h, _⟩ | ⟨_, h, _⟩ | ⟨_, _, _, h⟩ | ⟨_, _, hni, _⟩
  exacts [absurd h h1, absurd h h2, h, absurd hinf hni]

/-- Witness for the amended C2 at `"smith"`/`"john smith"`. -/
theorem token_match_scores_contains_wit :
    calculateSimilarity (str "smith") (str "john smith") = (0.85, MatchType.contains) :=
  token_match_scores_contains (str "smith") (str "john smith") (by decide) (by decide)
    ⟨normStr (str "smith"), by decide, Or.inl rfl⟩

/-- C6 counterexample: an empty query against the non-empty target `"a"`
returns `(0.95, startsWith)` — `"".startsWith` of anything holds — and a
non-empty query against an empty target returns match type `fuzzy`, so
degenerate inputs are NOT uniformly handled as exact matches. -/
theorem empty_query_counterexample :
    normStr (str "") = [] ∧
    calculateSimilarity (str "") (str "a") = (0.95, MatchType.startsWith) ∧
    (calculateSimilarity (str "") (str "a")).2 ≠ MatchType.exact ∧
    (calculateSimilarity (str "a") (str "")).2 ≠ MatchType.exact :=
  ⟨rfl, rfl, by decide, by decide⟩

/-- C6 amended: when BOTH normalized inputs are empty the result is
`(1.0, exact)` (so the fuzzy division is never reached with a zero
denominator); an empty query against a non-empty target hits the
startsWith rule (0.95); a non-empty query against an empty target falls to
the fuzzy rule with score 0. -/
theorem degenerate_inputs_behavior (query target : List Char) :
    (normStr query = [] → normStr target = [] →
      calculateSimilarity query target = (1, MatchType.exact)) ∧
    (normStr query = [] → normStr target ≠ [] →
      calculateSimilarity query target = (0.95, MatchType.startsWith)) ∧
    (normStr query ≠ [] → normStr target = [] →
      calculateSimilarity query target = (0, MatchType.fuzzy)) := by
  refine ⟨?_, ?_, ?_⟩
  · intro hq ht
    rcases calcSim_spec query target with ⟨_, h⟩ | ⟨hne, _⟩ | ⟨hne, _⟩ | ⟨hne, _⟩
    · exact h
    all_goals exact absurd (hq.trans ht.symm) hne
  · intro hq ht
    have hpre : normStr query <+: normStr target := by
      rw [hq]; exact List.nil_prefix
    rcases calcSim_spec query target with ⟨h, _⟩ | ⟨_, _, h⟩ | ⟨_, hnp, _⟩ | ⟨_, hnp, _⟩
    · exact absurd h.symm (by rw [hq]; exact fun hcontra => ht hcontra)
    · exact h
    · exact absurd hpre hnp
    · exact absurd hpre hnp
  · intro hq ht
    have hne : normStr query ≠ normStr target := by rw [ht]; exact hq
    have hnp : ¬ normStr query <+: normStr target := by
      rw [ht]; intro hp; exact hq (List.prefix_nil.mp hp)
    have hni : ¬ normStr query <:+: normStr target := by
      rw [ht]; intro hi; exact hq (List.infix_nil.mp hi)
    rcases calcSim_spec query target with ⟨h, _⟩ | ⟨_, h, _⟩ | ⟨_, _, h, _⟩ | ⟨_, _, _, h⟩
    · exact absurd h hne
    · exact absurd h hnp
    · exact absurd h hni
    · rw [h, ht, fuzzyScore_empty_target hq]

/-- Witness for the amended C6 at `("", "")`, `("", "a")`, and `("a", "")`. -/
theorem degenerate_inputs_behavior_wit :
    calculateSimilarity (str "") (str "") = (1, MatchType.exact) ∧
    calculateSimilarity (str "") (str "a") = (0.95, MatchType.startsWith) ∧
    calculateSimilarity (str "a") (str "") = (0, MatchType.fuzzy) :=
  ⟨(degenerate_inputs_behavior (str "") (str "")).1 rfl rfl,
   (degenerate_inputs_behavior (str "") (str "a")).2.1 rfl (by decide),
   (degenerate_inputs_behavior (str "a") (str "")).2.2 (by decide) rfl⟩

/-- C7 counterexample: an UNBOOSTED fuzzy score can also exceed the score of
a strictly higher-priority category, so the claim's sole admitted exception
(fuzzy combined with the first-letter 1.1 boost) is too narrow.
`"b"`/`"abc"` yields `(0.85, contains)` (priority 1) while
`"xbcdefgh"`/`"abcdefgh"` yields `(0.875, fuzzy)` (priority 0) with
DIFFERING first characters, hence no boost — and 0.85 < 0.875. -/
theorem priority_monotonicity_counterexample :
    calculateSimilarity (str "b") (str "abc") = (0.85, MatchType.contains) ∧
    calculateSimilarity (str "xbcdefgh") (str "abcdefgh") =
      (1 - ((1 : ℕ) : ℚ) / ((8 : ℕ) : ℚ), MatchType.fuzzy) ∧
    (normStr (str "xbcdefgh")).head? ≠ (normStr (str "abcdefgh")).head? ∧
    prio (calculateSimilarity (str "xbcdefgh") (str "abcdefgh")).2 <
      prio (calculateSimilarity (str "b") (str "abc")).2 ∧
    (calculateSimilarity (str "b") (str "abc")).1 <
      (calculateSimilarity (str "xbcdefgh") (str "abcdefgh")).1 := by
  refine ⟨rfl, rfl, by decide, by decide, ?_⟩
  have h1 : calculateSimilarity (str "b") (str "abc") = ((0.85 : ℚ), MatchType.contains) := rfl
  have h2 : calculateSimilarity (str "xbcdefgh") (str "abcdefgh") =
      (1 - ((1 : ℕ) : ℚ) / ((8 : ℕ) : ℚ), MatchType.fuzzy) := rfl
  rw [h1, h2]
  push_cast
  norm_num

/-- C7 amended: across any two calls, a strictly higher-priority match type
never carries a lower score than a lower-priority one, except possibly when
the lower-priority result is a fuzzy fallback — whether or not the
first-letter 1.1 boost applies. -/
theorem score_monotone_matchType (q1 t1 q2 t2 : List Char)
    (hp : prio (calculateSimilarity q2 t2).2 < prio (calculateSimilarity q1 t1).2)
    (hf : (calculateSimilarity q2 t2).2 ≠ MatchType.fuzzy) :
    (calculateSimilarity q2 t2).1 ≤ (calculateSimilarity q1 t1).1 := by
  have H1 := calcSim_score_of_matchType q1 t1
  have H2 := calcSim_score_of_matchType q2 t2
  rcases h2c : (calculateSimilarity q2 t2).2 with _ | _ | _ | _ | _
  · rw [h2c] at hp
    have h4 := prio_le_four (calculateSimilarity q1 t1).2
    have he : prio MatchType.exact = 4 := rfl
    omega
  · have hs2 : (calculateSimilarity q2 t2).1 = 0.95 := H2.2.1 h2c
    rw [h2c] at hp
    have h1e : (calculateSimilarity q1 t1).2 = MatchType.exact := by
      rcases h1c : (calculateSimilarity q1 t1).2 with _ | _ | _ | _ | _
      · rfl
      all_goals (rw [h1c] at hp; exact absurd hp (by decide))
    rw [hs2, H1.1 h1e]
    norm_num
  · have hs2 : (calculateSimilarity q2 t2).1 = 0.85 := H2.2.2.1 h2c
    rw [h2c] at hp
    rcases h1c : (calculateSimilarity q1 t1).2 with _ | _ | _ | _ | _
    · rw [hs2, H1.1 h1c]; norm_num
    · rw [hs2, H1.2.1 h1c]; norm_num
    · rw [h1c] at hp; exact absurd hp (by decide)
    · exact absurd h1c H1.2.2.2
    · rw [h1c] at hp; exact absurd hp (by decide)
  · exact absurd h2c H2.2.2.2
  · exact absurd h2c hf

/-- Witness for C7: an exact match (`"a"`/`"a"`, priority 4) scores at
least as much as a startsWith match (`"a"`/`"ab"`, priority 3). -/
theorem score_monotone_matchType_wit :
    (calculateSimilarity (str "a") (str "ab")).1 ≤ (calculateSimilarity (str "a") (str "a")).1 :=
  score_monotone_matchType (str "a") (str "a") (str "a") (str "ab") (by decide) (by decide)

/-- C3 counterexample: the ranker's service filter does NOT normalize the
filter string through `parseService`; it only lower-cases it.  The network
`"beeper (matrix)"` and the filter string `"beeper"` both normalize to the
canonical tag `"matrix"`, and the title `"sarah"` matches the query
exactly, yet the candidate is excluded and the ranking is empty, because
the code compares the candidate's canonical tag `"matrix"` with the raw
lower-cased filter `"beeper"`. -/
theorem service_filter_counterexample :
    parseService (some (str "beeper (matrix)")) = str "matrix" ∧
    parseService (some (str "beeper")) = str "matrix" ∧
    calculateSimilarity (str "sarah") (str "sarah") = (1, MatchType.exact) ∧
    rankChatMatches
      [{ id := str "1", title := str "sarah", network := str "beeper (matrix)" }]
      (str "sarah") (some { service := some (str "beeper") }) = [] :=
  ⟨rfl, rfl, rfl, rfl⟩

/-- C3 amended: for a non-empty service filter string `s`, a candidate is
retained for scoring if and only if the lower-cased `parseService` of its
network equals the lower-cased RAW filter string `s` itself (no
`parseService` normalization of the filter side); equality is strict on
that string, not a substring test. -/
theorem service_filter_membership (s : List Char) (hs : s ≠ [])
    (chats : List ChatMatch) (c : ChatMatch) :
    c ∈ serviceFilter (some s) chats ↔
      c ∈ chats ∧ lowerL (parseService (some c.network)) = lowerL s := by
  rw [serviceFilter, if_neg hs]
  simp [List.mem_filter]

/-- Witness for the amended C3: a telegram candidate passes a `"telegram"`
filter. -/
theorem service_filter_membership_wit :
    ({ id := str "1", title := str "bob", network := str "telegram" } : ChatMatch) ∈
      serviceFilter (some (str "telegram"))
        [{ id := str "1", title := str "bob", network := str "telegram" }] :=
  (service_filter_membership (str "telegram") (by decide) _ _).mpr
    ⟨List.mem_singleton.mpr rfl, rfl⟩

/-- C1: the ranker equals the reference pipeline (pre-filter, score, keep
scores ≥ minScore, stable descending sort, truncate), and consequently the
result never exceeds `maxResults` entries, every entry scores at least
`minScore`, the result is sorted by descending score, and if no candidate
clears `minScore` the result is the empty list. -/
theorem rank_pipeline_correct (chats : List ChatMatch) (query : List Char)
    (options : Option RankOptions) :
    rankChatMatches chats query options = rankReference chats query options ∧
    (rankChatMatches chats query options).length ≤ effMaxResults options ∧
    (∀ m ∈ rankChatMatches chats query options, effMinScore options ≤ m.score) ∧
    List.Sorted scoreGE (rankChatMatches chats query options) ∧
    ((∀ c ∈ chats, (calculateSimilarity query c.title).1 < effMinScore options) →
      rankChatMatches chats query options = []) := by
  refine ⟨rfl, ?_, ?_, ?_, ?_⟩
  · simp only [rankChatMatches]
    rw [List.length_take]
    exact min_le_left _ _
  · intro m hm
    simp only [rankChatMatches] at hm
    have hm2 := List.take_subset _ _ hm
    rw [List.mem_insertionSort] at hm2
    exact of_decide_eq_true (List.mem_filter.mp hm2).2
  · simp only [rankChatMatches]
    exact List.Pairwise.sublist (List.take_sublist _ _) (List.sorted_insertionSort _ _)
  · intro hall
    rw [List.eq_nil_iff_forall_not_mem]
    intro m hm
    have hge : effMinScore options ≤ m.score := by
      simp only [rankChatMatches] at hm
      have hm2 := List.take_subset _ _ hm
      rw [List.mem_insertionSort] at hm2
      exact of_decide_eq_true (List.mem_filter.mp hm2).2
    simp only [rankChatMatches] at hm
    have hm2 := List.take_subset _ _ hm
    rw [List.mem_insertionSort] at hm2
    have hm3 := (List.mem_filter.mp hm2).1
    simp only [scoreChats] at hm3
    rcases List.mem_map.mp hm3 with ⟨c, hc, rfl⟩
    exact absurd hge
      (not_le.mpr (hall c (serviceFilter_subset ((options.getD {}).service) chats hc)))

/-- Witness for C1's empty-result consequence: one candidate whose fuzzy
score is 0 (below the default minScore 0.4) yields the empty ranking. -/
theorem rank_pipeline_correct_wit :
    rankChatMatches [{ id := str "1", title := str "zzz", network := str "telegram" }]
      (str "abc") none = [] :=
  (rank_pipeline_correct
      [{ id := str "1", title := str "zzz", network := str "telegram" }]
      (str "abc") none).2.2.2.2
    (by
      intro c hc
      rw [List.mem_singleton] at hc
      subst hc
      have he : calculateSimilarity (str "abc") (str "zzz") =
          (1 - ((3 : ℕ) : ℚ) / ((3 : ℕ) : ℚ), MatchType.fuzzy) := rfl
      rw [he]
      norm_num [effMinScore])

end Beeper
